import Mathlib

/-!
Shallow embedding of the routing-and-forwarding engine of a host-based
HTTP(S) reverse proxy (src/index.ts).  JavaScript strings are modelled as
Lean `String`; JavaScript `undefined`/`null` as `Option`; thrown errors as
`Except`.  HTTP header maps (the Fetch `Headers` class) are modelled as
association lists whose names are stored lowercase, which is the canonical
form `Headers` keeps internally.
-/

/-! ### JS string and option primitives -/

/-- Decidable equality for `Except`, used to evaluate concrete runs of the
fallible operations in witnesses. -/
instance {ε α : Type} [DecidableEq ε] [DecidableEq α] : DecidableEq (Except ε α) := fun x y =>
  match x, y with
  | .ok a, .ok b =>
    if h : a = b then isTrue (h ▸ rfl) else isFalse (fun he => h (Except.ok.inj he))
  | .error a, .error b =>
    if h : a = b then isTrue (h ▸ rfl) else isFalse (fun he => h (Except.error.inj he))
  | .ok _, .error _ => isFalse (fun he => Except.noConfusion he)
  | .error _, .ok _ => isFalse (fun he => Except.noConfusion he)

/-- Truthiness of a JS `string | undefined` value: `undefined` and the empty
string are falsy, every other string is truthy. -/
def strOptTruthy (o : Option String) : Bool :=
  o.getD "" != ""

/-- JS whitespace test used by `String.prototype.trim` (ASCII subset; the
source only ever trims ordinary spaces/tabs/newlines in practice). -/
def isJsWs (c : Char) : Bool :=
  c == ' ' || c == '\t' || c == '\n' || c == '\r' || c == '\x0b' || c == '\x0c'

/-- List-level trim: drop leading and trailing whitespace characters. -/
def trimChars (l : List Char) : List Char :=
  ((l.dropWhile isJsWs).reverse.dropWhile isJsWs).reverse

/-- Model of JS `String.prototype.trim`. -/
def jsTrim (s : String) : String :=
  String.mk (trimChars s.data)

/-- `s.startsWith(pre)`, computed structurally on the character lists. -/
def strStartsWith (s pre : String) : Bool :=
  pre.data.isPrefixOf s.data

/-- `s.slice(n)` for a non-negative `n`: drop the first `n` characters. -/
def strDrop (s : String) (n : Nat) : String :=
  String.mk (s.data.drop n)

/-- Model of JS `String.prototype.toLowerCase` (ASCII case mapping). -/
def jsToLower (s : String) : String :=
  String.mk (s.data.map Char.toLower)

/-- Model of JS `s.split(sep)[0]` for a single-character separator: the
prefix of `s` before the first occurrence of `sep` (all of `s` if absent). -/
def headBefore (s : String) (sep : Char) : String :=
  String.mk (s.data.takeWhile (fun c => c != sep))

/-- Model of JS `Array.prototype.join`. -/
def jsJoin (sep : String) : List String → String
  | [] => ""
  | [x] => x
  | x :: y :: xs => x ++ sep ++ jsJoin sep (y :: xs)

/-- Model of JS `String.prototype.replace` with a string pattern: only the
first occurrence of `pat` is replaced. -/
def replFirstChars (pat repl : List Char) : List Char → List Char
  | [] => if pat.isEmpty then repl else []
  | c :: rest =>
    if pat.isPrefixOf (c :: rest) then repl ++ (c :: rest).drop pat.length
    else c :: replFirstChars pat repl rest

/-- String wrapper for `replFirstChars`. -/
def jsReplaceFirst (s pat repl : String) : String :=
  String.mk (replFirstChars pat.data repl.data s.data)

/-! ### Header map model (Fetch Headers, names stored lowercase) -/

/-- `headers.get(name)`: first entry with the given name, `null` if absent. -/
def hget (hs : List (String × String)) (name : String) : Option String :=
  (hs.find? (fun p => p.1 == name)).map Prod.snd

/-- `headers.delete(name)`. -/
def hdelete (hs : List (String × String)) (name : String) : List (String × String) :=
  hs.filter (fun p => p.1 != name)

/-- In-place replacement step used by `hset`. -/
def hreplace (name value : String) (hs : List (String × String)) : List (String × String) :=
  hs.map (fun p => if p.1 == name then (name, value) else p)

/-- `headers.set(name, value)`: replace in place when present, append when
absent. -/
def hset (hs : List (String × String)) (name value : String) : List (String × String) :=
  if hs.any (fun p => p.1 == name) then hreplace name value hs
  else hs ++ [(name, value)]

/-! ### Configuration data model (src/index.ts interfaces) -/

/-- Raw `http.redirect` section as read from JSON (`RawHttpRedirectConfig`). -/
structure RawHttpRedirectConfig where
  enabled : Option Bool
  port : Option Nat
  statusCode : Option Nat
deriving DecidableEq

/-- Raw `tls` section as read from JSON (`RawTlsConfig`); `caPath` may be a
single string or a list of strings. -/
structure RawTlsConfig where
  enabled : Option Bool
  certPath : Option String
  keyPath : Option String
  caPath : Option (Sum String (List String))
  passphrase : Option String
  requestClientCert : Option Bool
deriving DecidableEq

/-- Raw `http` section as read from JSON. -/
structure RawHttpConfig where
  enabled : Option Bool
  host : Option String
  port : Option Nat
  redirect : Option RawHttpRedirectConfig
deriving DecidableEq

/-- Raw configuration as read from JSON (`RawProxyConfig`); `routes` is the
JSON object's entry list in key order. -/
structure RawProxyConfig where
  http : Option RawHttpConfig
  routes : Option (List (String × String))
  requireExplicitHost : Option Bool
  allowIps : Option (List String)
  tls : Option RawTlsConfig
deriving DecidableEq

/-- Normalized `http.redirect` (`HttpRedirectConfig`). -/
structure HttpRedirectConfig where
  enabled : Bool
  port : Nat
  statusCode : Nat
deriving DecidableEq

/-- Normalized `tls` (`TlsConfig`); `enabled` is always `true` when present. -/
structure TlsConfig where
  enabled : Bool
  certPath : String
  keyPath : String
  caPaths : List String
  passphrase : Option String
  requestClientCert : Bool
deriving DecidableEq

/-- Normalized `http` section. -/
structure HttpConfig where
  enabled : Bool
  host : String
  port : Nat
  redirect : HttpRedirectConfig
deriving DecidableEq

/-- Fully normalized configuration (`ProxyConfig`).  `routes` keeps
JSON-object semantics: lookup takes the LAST entry with a given key, as
`Object.fromEntries` lets later duplicates win. -/
structure ProxyConfig where
  http : HttpConfig
  routes : List (String × String)
  requireExplicitHost : Bool
  allowIps : List String
  tls : Option TlsConfig
  configDir : String
deriving DecidableEq

/-- Property lookup on an `Object.fromEntries` result: the last entry with
the given key wins. -/
def objLookup (m : List (String × String)) (k : String) : Option String :=
  (m.reverse.find? (fun p => p.1 == k)).map Prod.snd

/-- `HTTP_REDIRECT_DEFAULTS` from the source. -/
def HTTP_REDIRECT_DEFAULTS : HttpRedirectConfig :=
  { enabled := false, port := 80, statusCode := 307 }

/-- `CONFIG_DEFAULTS.routes` from the source. -/
def DEFAULT_ROUTES : List (String × String) :=
  [("localhost", "http://127.0.0.1:3000")]

/-! ### Filesystem path helpers

`node:path` resolution is modelled for well-formed inputs: an absolute path
starts with '/', and resolving a relative path against a base concatenates
them with '/' (no '.'/'..' segment normalization, which the source never
relies on). -/

/-- Model of `isAbsolute` from `node:path`. -/
def isAbsolute (p : String) : Bool :=
  strStartsWith p "/"

/-- Model of `resolve(base, p)` from `node:path` for a relative `p`. -/
def pathResolve (base p : String) : String :=
  if isAbsolute p then p else base ++ "/" ++ p

/-- `expandHome`: expand a leading `~` against the home directory (the
`HOME ?? USERPROFILE` value, `none`/empty meaning unset). -/
def expandHome (home : Option String) (path : String) : String :=
  if !(strStartsWith path "~") then path
  else
    match home with
    | none => path
    | some h =>
      if h == "" then path
      else
        let remainder := String.mk ((strDrop path 1).data.dropWhile (fun c => c == '/' || c == '\\'))
        if remainder != "" then pathResolve h remainder else h

/-- `resolveWithBase`: trim, reject empty, expand `~`, then resolve against
the config directory. -/
def resolveWithBase (path : String) (baseDir : String) (home : Option String) :
    Except String String :=
  let trimmed := jsTrim path
  if trimmed == "" then
    .error "[proxy] Empty path encountered while resolving TLS configuration."
  else
    let expanded := expandHome home trimmed
    .ok (if isAbsolute expanded then expanded else pathResolve baseDir expanded)

/-- Resolve a list of CA paths left to right, propagating the first error
(JS `Array.prototype.map` with a throwing callback). -/
def resolveAll (baseDir : String) (home : Option String) :
    List String → Except String (List String)
  | [] => .ok []
  | e :: rest =>
    match resolveWithBase e baseDir home, resolveAll baseDir home rest with
    | .ok r, .ok rs => .ok (r :: rs)
    | .error err, _ => .error err
    | .ok _, .error err => .error err

/-! ### TLS and config normalization -/

/-- `normalizeTls`: decide whether TLS is wanted, reject a wanted-but-partial
cert/key pair, and resolve all referenced paths. -/
def normalizeTls (raw : Option RawTlsConfig) (baseDir : String) (home : Option String) :
    Except String (Option TlsConfig) :=
  match raw with
  | none => .ok none
  | some raw =>
    let certCandidate := raw.certPath.map jsTrim
    let keyCandidate := raw.keyPath.map jsTrim
    let wantsTls := raw.enabled.getD (strOptTruthy certCandidate && strOptTruthy keyCandidate)
    if !wantsTls then .ok none
    else if !(strOptTruthy certCandidate) || !(strOptTruthy keyCandidate) then
      .error "[proxy] TLS enabled but certPath or keyPath is missing."
    else
      let caCandidates : List String :=
        match raw.caPath with
        | none => []
        | some (Sum.inl s) => [s]
        | some (Sum.inr l) => l
      match resolveAll baseDir home ((caCandidates.map jsTrim).filter (fun e => e != "")) with
      | .error e => .error e
      | .ok caPaths =>
        match resolveWithBase (certCandidate.getD "") baseDir home,
            resolveWithBase (keyCandidate.getD "") baseDir home with
        | .ok certPath, .ok keyPath =>
          let passphrase := raw.passphrase.map jsTrim
          .ok (some
            { enabled := true
            , certPath := certPath
            , keyPath := keyPath
            , caPaths := caPaths
            , passphrase := match passphrase with
                | some p => if p != "" then some p else none
                | none => none
            , requestClientCert := raw.requestClientCert.getD false })
        | .error e, _ => .error e
        | _, .error e => .error e

/-- `normalizeConfig`: trim/lowercase route keys, trim route values, fall
back to the default route set when the normalized map is empty, default all
optional fields, and normalize TLS. -/
def normalizeConfig (raw : Option RawProxyConfig) (baseDir : String) (home : Option String) :
    Except String ProxyConfig :=
  let routesEntries := ((raw.bind (fun r => r.routes)).getD []).map
    (fun kv => (jsToLower (jsTrim kv.1), jsTrim kv.2))
  let routes := if routesEntries.length > 0 then routesEntries else DEFAULT_ROUTES
  let rawRedirect := (raw.bind (fun r => r.http)).bind (fun h => h.redirect)
  let redirect : HttpRedirectConfig :=
    { enabled := (rawRedirect.bind (fun r => r.enabled)).getD HTTP_REDIRECT_DEFAULTS.enabled
    , port := (rawRedirect.bind (fun r => r.port)).getD HTTP_REDIRECT_DEFAULTS.port
    , statusCode := (rawRedirect.bind (fun r => r.statusCode)).getD HTTP_REDIRECT_DEFAULTS.statusCode }
  let http : HttpConfig :=
    { enabled := ((raw.bind (fun r => r.http)).bind (fun h => h.enabled)).getD true
    , host := ((raw.bind (fun r => r.http)).bind (fun h => h.host)).getD "0.0.0.0"
    , port := ((raw.bind (fun r => r.http)).bind (fun h => h.port)).getD 80
    , redirect := redirect }
  match normalizeTls (raw.bind (fun r => r.tls)) baseDir home with
  | .error e => .error e
  | .ok tls =>
    .ok { http := http
        , routes := routes
        , requireExplicitHost := (raw.bind (fun r => r.requireExplicitHost)).getD false
        , allowIps := ((raw.bind (fun r => r.allowIps)).getD []).map jsTrim |>.filter (fun s => s != "")
        , tls := tls
        , configDir := baseDir }

/-! ### Host resolution and IP gating -/

/-- `UnknownHostError`: carries the normalized host it was thrown for. -/
structure UnknownHostError where
  host : String
deriving DecidableEq

/-- Normalization the handler applies to the `Host` header before lookup:
`(hostHeader ?? "").split(":")[0]?.toLowerCase() ?? ""`. -/
def hostOfHeader (hostHeader : Option String) : String :=
  jsToLower (headBefore (hostHeader.getD "") ':')

/-- `pickTarget`: exact-match route lookup on the normalized host.  A JS
falsy mapped value (absent key or empty-string target) throws
`UnknownHostError`. -/
def pickTarget (config : ProxyConfig) (hostHeader : Option String) :
    Except UnknownHostError String :=
  let host := hostOfHeader hostHeader
  match objLookup config.routes host with
  | some mapped => if mapped != "" then .ok mapped else .error { host := host }
  | none => .error { host := host }

/-- `isIpAllowed`: empty allowlist admits everything; a non-empty allowlist
admits exactly the truthy IPs it contains verbatim. -/
def isIpAllowed (config : ProxyConfig) (ip : Option String) : Bool :=
  if config.allowIps.length == 0 then true
  else
    match ip with
    | some i => if i != "" then config.allowIps.contains i else false
    | none => false

/-! ### Request forwarding (proxyFetch) -/

/-- The slice of a Fetch `Request` the forwarder reads: method, the parsed
request URL's protocol/path/query, the header list, and the (streamed) body
modelled as an optional byte string. -/
structure Req where
  method : String
  urlProtocol : String
  urlPathname : String
  urlSearch : String
  headers : List (String × String)
  body : Option String
deriving DecidableEq

/-- The outbound `RequestInit` the forwarder builds: method, rewritten
headers, `redirect: "manual"`, and an optional body. -/
structure RequestInit where
  method : String
  headers : List (String × String)
  redirectManual : Bool
  body : Option String
deriving DecidableEq

/-- An HTTP response produced directly by the proxy core. -/
structure Response where
  status : Nat
  body : Option String
  headers : List (String × String)
deriving DecidableEq

/-- `[headers.get("x-forwarded-for"), clientIP].filter(Boolean).join(", ")`:
JS `filter(Boolean)` drops both absent and empty-string entries. -/
def joinXff (prior clientIP : Option String) : String :=
  jsJoin ", " (([prior, clientIP].filterMap id).filter (fun s => s != ""))

/-- The header rewrite of `proxyFetch` (lines 334-341): copy, drop `host`,
set `x-forwarded-for`, `x-forwarded-host`, `x-forwarded-proto`. -/
def forwardHeaders (reqHeaders : List (String × String)) (clientIP : Option String)
    (protocol : String) : List (String × String) :=
  let hs := hdelete reqHeaders "host"
  let hs := hset hs "x-forwarded-for" (joinXff (hget hs "x-forwarded-for") clientIP)
  let hs := hset hs "x-forwarded-host" ((hget reqHeaders "host").getD "")
  hset hs "x-forwarded-proto" (jsReplaceFirst protocol ":" "")

/-- The outbound `RequestInit` of `proxyFetch` (lines 343-351): GET/HEAD
never carry a body, every other method forwards the inbound body stream. -/
def buildInit (req : Req) (clientIP : Option String) : RequestInit :=
  { method := req.method
  , headers := forwardHeaders req.headers clientIP req.urlProtocol
  , redirectManual := true
  , body := if ["GET", "HEAD"].contains req.method then none else req.body }

/-- What `proxyFetch` decides before contacting the upstream: an immediate
response (403/404) or an outbound call to the resolved target.  The final
URL string assembly (`buildProxiedUrl`) and the relay of the upstream
response are outside the claims and elided; `forward` carries the resolved
target base URL and the outbound `RequestInit`. -/
inductive ProxyAction where
  | respond (r : Response)
  | forward (target : String) (init : RequestInit)
deriving DecidableEq

/-- `proxyFetch` up to the outbound `fetch`: IP gate, host resolution with
`UnknownHostError` mapped to 404, then the outbound request construction.
`clientIP` is the `server.requestIP` result's address. -/
def proxyFetch (config : ProxyConfig) (clientIP : Option String) (req : Req) : ProxyAction :=
  if !(isIpAllowed config clientIP) then
    .respond { status := 403, body := some "Forbidden", headers := [] }
  else
    match pickTarget config (hget req.headers "host") with
    | .error _ => .respond { status := 404, body := some "Not Found", headers := [] }
    | .ok target => .forward target (buildInit req clientIP)

/-! ### Listener wiring (startHttpRedirect) -/

/-- Outcome of `startHttpRedirect`: the port of the second listener when one
is started, plus the warnings logged on the skip paths. -/
structure RedirectStart where
  server : Option Nat
  warnings : List String
deriving DecidableEq

/-- `startHttpRedirect` (lines 400-412): requires `redirect.enabled`, active
TLS, and a redirect port different from the primary port; otherwise skips
(warning on the TLS and port-clash paths). -/
def startHttpRedirect (config : ProxyConfig) : RedirectStart :=
  if !config.http.redirect.enabled then
    { server := none, warnings := [] }
  else if config.tls.isNone then
    { server := none
    , warnings := ["[proxy] HTTP redirect requested but TLS is disabled; skipping redirect listener."] }
  else if config.http.redirect.port == config.http.port then
    { server := none
    , warnings := ["[proxy] Redirect port matches TLS port; skipping redirect listener to avoid loops."] }
  else
    { server := some config.http.redirect.port, warnings := [] }

/-- The redirect listener's fetch handler (lines 420-431), applied to the
hostname/path/query of the incoming request URL. -/
def redirectHandler (config : ProxyConfig) (hostname pathname search : String) : Response :=
  let tlsPort := config.http.port
  let locationHost :=
    if tlsPort == 443 then hostname else hostname ++ ":" ++ toString tlsPort
  { status := config.http.redirect.statusCode
  , body := none
  , headers := [("location", "https://" ++ locationHost ++ pathname ++ search)] }

/-! ### Config loading (loadConfig and helpers)

File I/O is modelled by two oracles: `fs` maps a resolved path to the parsed
raw config of an existing JSON file (`none` = no file), and `fexists` answers
`Bun.file(path).exists()` for TLS material. -/

/-- The process environment `loadConfig` reads: the two config env vars, the
home directory, the working directory, and the resolved path of the package's
bundled `../proxy.config.json` URL. -/
structure LoadEnv where
  proxyConfig : Option String
  reverseProxyConfig : Option String
  home : Option String
  cwd : String
  bundledConfigUrl : String
deriving DecidableEq

/-- Model of `dirname` from `node:path` (up to the last '/'). -/
def dirname (p : String) : String :=
  if p.data.contains '/' then
    let rem := (p.data.reverse.dropWhile (fun c => c != '/')).drop 1
    if rem.isEmpty then "/" else String.mk rem.reverse
  else "."

/-- `toFileURL`: accept a `file://` URL as-is (modelled by its path), expand
`~`, and resolve relative paths against the working directory. -/
def toFileURL (env : LoadEnv) (candidate : String) : String :=
  if strStartsWith candidate "file://" then strDrop candidate 7
  else
    let expanded := expandHome env.home candidate
    if isAbsolute expanded then expanded else pathResolve env.cwd expanded

/-- `validateTlsFiles`: every referenced TLS file must exist. -/
def validateTlsFiles (fexists : String → Bool) (config : ProxyConfig) : Except String Unit :=
  match config.tls with
  | none => .ok ()
  | some tls =>
    match (tls.certPath :: tls.keyPath :: tls.caPaths).find? (fun p => !(fexists p)) with
    | some p => .error ("[proxy] TLS file not found at " ++ p)
    | none => .ok ()

/-- `readConfigCandidate`: `none` when no file exists at the path; otherwise
the parsed-and-normalized config (or the error normalization/validation
throws). -/
def readConfigCandidate (fs : String → Option RawProxyConfig) (fexists : String → Bool)
    (home : Option String) (url : String) : Option (Except String ProxyConfig) :=
  match fs url with
  | none => none
  | some raw =>
    some (match normalizeConfig (some raw) (dirname url) home with
      | .error e => .error e
      | .ok config =>
        match validateTlsFiles fexists config with
        | .error e => .error e
        | .ok _ => .ok config)

/-- The first candidate of the search list that yields a file (the `for`
loop of `loadConfig`). -/
def firstFound (fs : String → Option RawProxyConfig) (fexists : String → Bool)
    (home : Option String) : List String → Option (Except String ProxyConfig)
  | [] => none
  | c :: rest =>
    match readConfigCandidate fs fexists home c with
    | some r => some r
    | none => firstFound fs fexists home rest

/-- `loadConfig`: explicit path, then `PROXY_CONFIG ?? REVERSE_PROXY_CONFIG`,
then the fixed search list, then the built-in fallback
(`FALLBACK_CONFIG = normalizeConfig(null, process.cwd())`). -/
def loadConfig (fs : String → Option RawProxyConfig) (fexists : String → Bool)
    (env : LoadEnv) (configPath : Option String) : Except String ProxyConfig :=
  if strOptTruthy configPath then
    let p := configPath.getD ""
    match readConfigCandidate fs fexists env.home (toFileURL env p) with
    | some r => r
    | none => .error ("[proxy] Config file not found at " ++ toFileURL env p)
  else
    let envPath := env.proxyConfig <|> env.reverseProxyConfig
    if strOptTruthy envPath then
      let ep := envPath.getD ""
      match readConfigCandidate fs fexists env.home (toFileURL env ep) with
      | some r => r
      | none => .error ("[proxy] PROXY_CONFIG points to a missing file: " ++ ep)
    else
      let search := [toFileURL env "proxy.config.json",
        toFileURL env "proxy.config.example.json", env.bundledConfigUrl]
      match firstFound fs fexists env.home search with
      | some r => r
      | none => normalizeConfig none env.cwd env.home

/-! ### Concrete values used by witnesses and counterexamples -/

/-- A plain test configuration with the given routes and allowlist
(HTTP on port 80, no TLS). -/
def mkTestConfig (routes : List (String × String)) (allowIps : List String) : ProxyConfig :=
  { http := { enabled := true, host := "0.0.0.0", port := 80, redirect := HTTP_REDIRECT_DEFAULTS }
  , routes := routes
  , requireExplicitHost := false
  , allowIps := allowIps
  , tls := none
  , configDir := "/" }

/-- The claim's "certPath present" test: non-empty after trimming. -/
def tlsCertPresent (raw : RawTlsConfig) : Bool :=
  strOptTruthy (raw.certPath.map jsTrim)

/-- The claim's "keyPath present" test: non-empty after trimming. -/
def tlsKeyPresent (raw : RawTlsConfig) : Bool :=
  strOptTruthy (raw.keyPath.map jsTrim)

/-- The claim's "TLS wanted" predicate: `enabled` explicitly true, or both
paths present while `enabled` is unset. -/
def tlsWanted (raw : RawTlsConfig) : Bool :=
  (raw.enabled == some true) ||
    (raw.enabled == none && tlsCertPresent raw && tlsKeyPresent raw)

/-- The hard-coded fallback configuration (`FALLBACK_CONFIG`, i.e.
`normalizeConfig(null, cwd)`). -/
def defaultConfig (cwd : String) : ProxyConfig :=
  { http := { enabled := true, host := "0.0.0.0", port := 80
            , redirect := { enabled := false, port := 80, statusCode := 307 } }
  , routes := [("localhost", "http://127.0.0.1:3000")]
  , requireExplicitHost := false
  , allowIps := []
  , tls := none
  , configDir := cwd }

/-- A raw config whose single route key trims to the empty string. -/
def rawC9 : RawProxyConfig :=
  { http := none, routes := some [(" ", "http://internal")]
  , requireExplicitHost := none, allowIps := none, tls := none }

/-- What `normalizeConfig` produces for `rawC9`: the empty-string route key
is kept. -/
def cfgC9 : ProxyConfig :=
  { http := { enabled := true, host := "0.0.0.0", port := 80
            , redirect := HTTP_REDIRECT_DEFAULTS }
  , routes := [("", "http://internal")]
  , requireExplicitHost := false, allowIps := [], tls := none, configDir := "/cfg" }

/-- A raw config with every field absent (an empty JSON object). -/
def rawEmptyConfig : RawProxyConfig :=
  { http := none, routes := none, requireExplicitHost := none
  , allowIps := none, tls := none }

/-- The environment of the C3 counterexample: `PROXY_CONFIG` points at a
missing file while `proxy.config.json` exists in the working directory. -/
def envC3 : LoadEnv :=
  { proxyConfig := some "/missing", reverseProxyConfig := none, home := none
  , cwd := "/cwd", bundledConfigUrl := "/bundled/proxy.config.json" }

/-- The filesystem of the C3 counterexample: only `/cwd/proxy.config.json`
exists. -/
def fsC3 : String → Option RawProxyConfig :=
  fun s => if s = "/cwd/proxy.config.json" then some rawEmptyConfig else none

/-! ### Lemmas about the header map -/

theorem hget_hreplace_self (n v : String) (hs : List (String × String))
    (h : hs.any (fun p => p.1 == n) = true) :
    hget (hreplace n v hs) n = some v := by
  induction hs with
  | nil => simp at h
  | cons p rest ih =>
    by_cases hp : p.1 = n
    · rw [hreplace, List.map_cons, if_pos (by simpa using hp), hget,
        List.find?_cons_of_pos _ (by simp)]
      rfl
    · rw [hreplace, List.map_cons, if_neg (by simpa using hp), hget,
        List.find?_cons_of_neg _ (by simpa using hp)]
      have hrest : rest.any (fun q => q.1 == n) = true := by
        rcases (by simpa using h : p.1 = n ∨ rest.any (fun q => q.1 == n) = true) with h1 | h1
        · exact absurd h1 hp
        · exact h1
      exact ih hrest

theorem hget_hreplace_ne (n v m : String) (hne : m ≠ n) (hs : List (String × String)) :
    hget (hreplace n v hs) m = hget hs m := by
  induction hs with
  | nil => rfl
  | cons p rest ih =>
    by_cases hp : p.1 = n
    · rw [hreplace, List.map_cons, if_pos (by simpa using hp), hget,
        List.find?_cons_of_neg _ (by simpa using fun e => hne e.symm), hget,
        List.find?_cons_of_neg _ (by simp [hp]; exact fun e => hne e.symm)]
      exact ih
    · by_cases hpm : p.1 = m
      · rw [hreplace, List.map_cons, if_neg (by simpa using hp), hget,
          List.find?_cons_of_pos _ (by simpa using hpm), hget,
          List.find?_cons_of_pos _ (by simpa using hpm)]
      · rw [hreplace, List.map_cons, if_neg (by simpa using hp), hget,
          List.find?_cons_of_neg _ (by simpa using hpm), hget,
          List.find?_cons_of_neg _ (by simpa using hpm)]
        exact ih

theorem hget_append_single_self (n v : String) (hs : List (String × String))
    (h : hs.any (fun p => p.1 == n) = false) :
    hget (hs ++ [(n, v)]) n = some v := by
  induction hs with
  | nil =>
    rw [List.nil_append, hget, List.find?_cons_of_pos _ (by simp)]
    rfl
  | cons p rest ih =>
    have h1 : (p.1 == n) = false ∧ rest.any (fun q => q.1 == n) = false := by
      simpa using h
    rw [List.cons_append, hget, List.find?_cons_of_neg _ (by simp [h1.1])]
    exact ih h1.2

theorem hget_append_single_ne (n v m : String) (hne : m ≠ n) (hs : List (String × String)) :
    hget (hs ++ [(n, v)]) m = hget hs m := by
  induction hs with
  | nil =>
    rw [List.nil_append, hget, List.find?_cons_of_neg _ (by simpa using fun e => hne e.symm)]
    rfl
  | cons p rest ih =>
    by_cases hpm : p.1 = m
    · rw [List.cons_append, hget, List.find?_cons_of_pos _ (by simpa using hpm), hget,
        List.find?_cons_of_pos _ (by simpa using hpm)]
    · rw [List.cons_append, hget, List.find?_cons_of_neg _ (by simpa using hpm), hget,
        List.find?_cons_of_neg _ (by simpa using hpm)]
      exact ih

theorem hget_hset_self (hs : List (String × String)) (n v : String) :
    hget (hset hs n v) n = some v := by
  unfold hset
  cases h : hs.any (fun p => p.1 == n)
  · rw [if_neg (by simp)]
    exact hget_append_single_self n v hs h
  · rw [if_pos rfl]
    exact hget_hreplace_self n v hs h

theorem hget_hset_ne (hs : List (String × String)) (n v m : String) (hne : m ≠ n) :
    hget (hset hs n v) m = hget hs m := by
  unfold hset
  cases h : hs.any (fun p => p.1 == n)
  · rw [if_neg (by simp)]
    exact hget_append_single_ne n v m hne hs
  · rw [if_pos rfl]
    exact hget_hreplace_ne n v m hne hs

theorem hget_hdelete_self (hs : List (String × String)) (n : String) :
    hget (hdelete hs n) n = none := by
  induction hs with
  | nil => rfl
  | cons p rest ih =>
    by_cases hp : p.1 = n
    · rw [hdelete, List.filter_cons, if_neg (by simp [hp])]
      exact ih
    · rw [hdelete, List.filter_cons, if_pos (by simpa using hp), hget,
        List.find?_cons_of_neg _ (by simpa using hp)]
      exact ih

theorem hget_hdelete_ne (hs : List (String × String)) (n m : String) (hne : m ≠ n) :
    hget (hdelete hs n) m = hget hs m := by
  induction hs with
  | nil => rfl
  | cons p rest ih =>
    by_cases hp : p.1 = n
    · have hrhs : hget (p :: rest) m = hget rest m := by
        rw [hget, List.find?_cons_of_neg _ (by simp [hp]; exact fun e => hne e.symm)]
        rfl
      rw [hdelete, List.filter_cons, if_neg (by simp [hp]), hrhs]
      exact ih
    · by_cases hpm : p.1 = m
      · rw [hdelete, List.filter_cons, if_pos (by simpa using hp), hget,
          List.find?_cons_of_pos _ (by simpa using hpm), hget,
          List.find?_cons_of_pos _ (by simpa using hpm)]
      · rw [hdelete, List.filter_cons, if_pos (by simpa using hp), hget,
          List.find?_cons_of_neg _ (by simpa using hpm), hget,
          List.find?_cons_of_neg _ (by simpa using hpm)]
        exact ih

/-! ### Lemmas about the string helpers -/

theorem trimChars_eq_rdropWhile (l : List Char) :
    trimChars l = (l.dropWhile isJsWs).rdropWhile isJsWs := rfl

theorem trimChars_dropWhile_self (l : List Char) :
    (trimChars l).dropWhile isJsWs = trimChars l := by
  rw [trimChars_eq_rdropWhile]
  obtain ⟨t, ht⟩ := List.rdropWhile_prefix isJsWs (l.dropWhile isJsWs)
  cases hr : (l.dropWhile isJsWs).rdropWhile isJsWs with
  | nil => simp
  | cons a rs =>
    rw [hr] at ht
    have hne : l.dropWhile isJsWs ≠ [] := by
      rw [← ht]; simp
    have hhead := List.head_dropWhile_not isJsWs l hne
    have hh : (l.dropWhile isJsWs).head hne = a := by
      have : l.dropWhile isJsWs = a :: (rs ++ t) := by rw [← ht]; rfl
      simp [this]
    rw [hh] at hhead
    simp [List.dropWhile_cons, hhead]

theorem trimChars_idem (l : List Char) : trimChars (trimChars l) = trimChars l := by
  have h1 : trimChars (trimChars l) = ((trimChars l).dropWhile isJsWs).rdropWhile isJsWs := rfl
  rw [h1, trimChars_dropWhile_self, trimChars_eq_rdropWhile, List.rdropWhile_idempotent]

theorem jsTrim_idem (s : String) : jsTrim (jsTrim s) = jsTrim s := by
  show String.mk (trimChars (String.mk (trimChars s.data)).data) = String.mk (trimChars s.data)
  rw [show (String.mk (trimChars s.data)).data = trimChars s.data from rfl, trimChars_idem]

theorem jsToLower_eq_empty_iff (s : String) : jsToLower s = "" ↔ s = "" := by
  cases s with
  | mk data =>
    constructor
    · intro h
      have hd : (jsToLower (String.mk data)).data = ("" : String).data := by rw [h]
      have : data.map Char.toLower = [] := hd
      rcases List.map_eq_nil_iff.mp this with rfl
      rfl
    · intro h
      rw [h]
      rfl

theorem mem_data_of_toLower_mem (s : String) (c : Char) (hc : Char.toLower c = c)
    (h : c ∈ s.data) : c ∈ (jsToLower s).data := by
  show c ∈ s.data.map Char.toLower
  rw [← hc]
  exact List.mem_map_of_mem Char.toLower h

theorem headBefore_of_no_sep (s : String) (h : ':' ∉ s.data) : headBefore s ':' = s := by
  cases s with
  | mk data =>
    show String.mk (data.takeWhile (fun c => c != ':')) = String.mk data
    congr 1
    rw [List.takeWhile_eq_self_iff]
    intro x hx
    simpa using fun e : x = ':' => h (e ▸ hx)

theorem takeWhile_append_stop (l t : List Char) (hl : ∀ x ∈ l, (x != ':') = true) :
    (l ++ ':' :: t).takeWhile (fun c => c != ':') = l := by
  induction l with
  | nil => simp [List.takeWhile_cons]
  | cons a rest ih =>
    have ha := hl a (by simp)
    simp only [List.cons_append, List.takeWhile_cons, ha, if_pos]
    rw [ih (fun x hx => hl x (by simp [hx]))]

theorem headBefore_append_sep (h p : String) (hh : ':' ∉ h.data) :
    headBefore (h ++ ":" ++ p) ':' = h := by
  cases h with
  | mk data =>
    show String.mk ((String.mk data ++ ":" ++ p).data.takeWhile (fun c => c != ':')) = _
    have hd : (String.mk data ++ ":" ++ p).data = data ++ ':' :: p.data := by
      show (data ++ (":" : String).data) ++ p.data = _
      simp [show (":" : String).data = [':'] from rfl]
    rw [hd, takeWhile_append_stop]
    intro x hx
    simpa using fun e : x = ':' => hh (e ▸ hx)

/-! ### Lemmas about TLS and config normalization -/

theorem wantsTls_eq_tlsWanted (raw : RawTlsConfig) :
    raw.enabled.getD
        (strOptTruthy (raw.certPath.map jsTrim) && strOptTruthy (raw.keyPath.map jsTrim)) =
      tlsWanted raw := by
  cases he : raw.enabled with
  | none => simp [tlsWanted, tlsCertPresent, tlsKeyPresent, he]
  | some b => cases b <;> simp [tlsWanted, tlsCertPresent, tlsKeyPresent, he]

theorem resolveWithBase_ok (x baseDir : String) (home : Option String)
    (hx : jsTrim x ≠ "") : ∃ r, resolveWithBase x baseDir home = .ok r := by
  unfold resolveWithBase
  rw [if_neg (by simpa using hx)]
  exact ⟨_, rfl⟩

theorem resolveAll_ok (baseDir : String) (home : Option String) (l : List String)
    (hl : ∀ e ∈ l, jsTrim e ≠ "") :
    ∃ rs, resolveAll baseDir home l = .ok rs := by
  induction l with
  | nil => exact ⟨[], rfl⟩
  | cons e rest ih =>
    obtain ⟨r, hr⟩ := resolveWithBase_ok e baseDir home (hl e (by simp))
    obtain ⟨rs, hrs⟩ := ih (fun x hx => hl x (by simp [hx]))
    refine ⟨r :: rs, ?_⟩
    simp only [resolveAll]
    rw [hr, hrs]

theorem filtered_trim_ne (l : List String) :
    ∀ e ∈ (l.map jsTrim).filter (fun e => e != ""), jsTrim e ≠ "" := by
  intro e he
  obtain ⟨he1, he2⟩ := List.mem_filter.mp he
  obtain ⟨orig, _, horig⟩ := List.mem_map.mp he1
  rw [← horig, jsTrim_idem, horig]
  simpa using he2

theorem strOptTruthy_map_jsTrim (o : Option String)
    (h : strOptTruthy (o.map jsTrim) = true) :
    jsTrim ((o.map jsTrim).getD "") ≠ "" := by
  cases o with
  | none => simp [strOptTruthy] at h
  | some c =>
    have hne : jsTrim c ≠ "" := by simpa [strOptTruthy] using h
    rw [show (((some c).map jsTrim).getD "") = jsTrim c from rfl, jsTrim_idem]
    exact hne

theorem normalizeConfig_none (cwd : String) (home : Option String) :
    normalizeConfig none cwd home = .ok (defaultConfig cwd) := rfl

/-! ### Claim theorems -/

/-- C1: a configured route key (lowercase, port-free, with a non-empty
upstream) is matched by any Host header equal to it in any letter case, with
or without a trailing `:port`; a host whose normalized form is not a key
fails with `UnknownHostError` carrying the normalized host, and `proxyFetch`
maps that failure to a 404 response. -/
theorem c1_host_resolution (cfg : ProxyConfig) :
    (∀ k u, objLookup cfg.routes k = some u → u ≠ "" → ':' ∉ k.data →
      ∀ h, jsToLower h = k →
        pickTarget cfg (some h) = .ok u ∧
        ∀ p, pickTarget cfg (some (h ++ ":" ++ p)) = .ok u)
    ∧ (∀ hh, objLookup cfg.routes (hostOfHeader hh) = none →
        pickTarget cfg hh = .error { host := hostOfHeader hh })
    ∧ (∀ ip req, isIpAllowed cfg ip = true →
        objLookup cfg.routes (hostOfHeader (hget req.headers "host")) = none →
        proxyFetch cfg ip req =
          .respond { status := 404, body := some "Not Found", headers := [] }) := by
  have hB : ∀ hh, objLookup cfg.routes (hostOfHeader hh) = none →
      pickTarget cfg hh = .error { host := hostOfHeader hh } := by
    intro hh hnone
    simp only [pickTarget]
    rw [hnone]
  refine ⟨?_, hB, ?_⟩
  · intro k u hk hu hkc h hlow
    have hhc : ':' ∉ h.data := by
      intro hmem
      exact hkc (hlow ▸ mem_data_of_toLower_mem h ':' (by decide) hmem)
    have hplain : hostOfHeader (some h) = k := by
      unfold hostOfHeader
      rw [show (some h).getD "" = h from rfl, headBefore_of_no_sep h hhc, hlow]
    constructor
    · simp only [pickTarget]
      rw [hplain, hk]
      simp [hu]
    · intro p
      have hport : hostOfHeader (some (h ++ ":" ++ p)) = k := by
        unfold hostOfHeader
        rw [show (some (h ++ ":" ++ p)).getD "" = h ++ ":" ++ p from rfl,
          headBefore_append_sep h p hhc, hlow]
      simp only [pickTarget]
      rw [hport, hk]
      simp [hu]
  · intro ip req hip hnone
    simp only [proxyFetch]
    rw [hip, hB (hget req.headers "host") hnone]
    rfl

/-- C1 witness: `Example.COM` and `Example.COM:8443` resolve the
`example.com` route; an unknown host gets a 404. -/
theorem c1_witness :
    pickTarget (mkTestConfig [("example.com", "http://upstream:3000")] [])
        (some "Example.COM") = .ok "http://upstream:3000" ∧
    pickTarget (mkTestConfig [("example.com", "http://upstream:3000")] [])
        (some ("Example.COM" ++ ":" ++ "8443")) = .ok "http://upstream:3000" ∧
    proxyFetch (mkTestConfig [("example.com", "http://upstream:3000")] []) none
        { method := "GET", urlProtocol := "http:", urlPathname := "/", urlSearch := ""
        , headers := [("host", "nope.example")], body := none } =
      .respond { status := 404, body := some "Not Found", headers := [] } := by
  have hA := (c1_host_resolution (mkTestConfig [("example.com", "http://upstream:3000")] [])).1
    "example.com" "http://upstream:3000" (by decide) (by decide) (by decide)
    "Example.COM" (by decide)
  have hC := (c1_host_resolution (mkTestConfig [("example.com", "http://upstream:3000")] [])).2.2
    none { method := "GET", urlProtocol := "http:", urlPathname := "/", urlSearch := ""
         , headers := [("host", "nope.example")], body := none } (by decide) (by decide)
  exact ⟨hA.1, hA.2 "8443", hC⟩

/-- C2: for a forwarded request with a determinable client IP, the outbound
header set observably equals the inbound set with the `Host` header removed,
`x-forwarded-for` set to the prior value with the client IP appended
(comma-joined) or just the client IP when no prior value exists,
`x-forwarded-host` set to the inbound `Host` verbatim, and
`x-forwarded-proto` set to the inbound scheme with no colon. -/
theorem c2_header_propagation (hs : List (String × String)) (ip scheme hostVal : String)
    (hip : ip ≠ "")
    (hprior : hget hs "x-forwarded-for" ≠ some "")
    (hhost : hget hs "host" = some hostVal)
    (hscheme : scheme = "http" ∨ scheme = "https") :
    ∀ name, hget (forwardHeaders hs (some ip) (scheme ++ ":")) name =
      if name = "host" then none
      else if name = "x-forwarded-for" then
        some (match hget hs "x-forwarded-for" with
          | none => ip
          | some prior => prior ++ ", " ++ ip)
      else if name = "x-forwarded-host" then some hostVal
      else if name = "x-forwarded-proto" then some scheme
      else hget hs name := by
  intro name
  unfold forwardHeaders
  have hproto : jsReplaceFirst (scheme ++ ":") ":" "" = scheme := by
    rcases hscheme with h | h <;> rw [h] <;> rfl
  have hxffval : joinXff (hget (hdelete hs "host") "x-forwarded-for") (some ip) =
      (match hget hs "x-forwarded-for" with
        | none => ip
        | some prior => prior ++ ", " ++ ip) := by
    rw [hget_hdelete_ne _ _ _ (by decide)]
    cases hp : hget hs "x-forwarded-for" with
    | none =>
      show jsJoin ", " ([ip].filter (fun s => s != "")) = ip
      rw [List.filter_cons, if_pos (by simpa using hip)]
      rfl
    | some prior =>
      have hpne : prior ≠ "" := fun e => hprior (by rw [hp, e])
      show jsJoin ", " ([prior, ip].filter (fun s => s != "")) = prior ++ ", " ++ ip
      rw [List.filter_cons, if_pos (by simpa using hpne), List.filter_cons,
        if_pos (by simpa using hip)]
      rfl
  by_cases h1 : name = "host"
  · subst h1
    rw [if_pos rfl, hget_hset_ne _ _ _ _ (by decide), hget_hset_ne _ _ _ _ (by decide),
      hget_hset_ne _ _ _ _ (by decide), hget_hdelete_self]
  · rw [if_neg h1]
    by_cases h2 : name = "x-forwarded-for"
    · subst h2
      rw [if_pos rfl, hget_hset_ne _ _ _ _ (by decide), hget_hset_ne _ _ _ _ (by decide),
        hget_hset_self, hxffval]
    · rw [if_neg h2]
      by_cases h3 : name = "x-forwarded-host"
      · subst h3
        rw [if_pos rfl, hget_hset_ne _ _ _ _ (by decide), hget_hset_self, hhost]
        rfl
      · rw [if_neg h3]
        by_cases h4 : name = "x-forwarded-proto"
        · subst h4
          rw [if_pos rfl, hget_hset_self, hproto]
        · rw [if_neg h4, hget_hset_ne _ _ _ _ h4, hget_hset_ne _ _ _ _ h3,
            hget_hset_ne _ _ _ _ h2, hget_hdelete_ne _ _ _ h1]

/-- C2 witness: a request carrying `X-Forwarded-For: 1.2.3.4` from client
5.6.7.8 over https. -/
theorem c2_witness :
    hget (forwardHeaders [("host", "example.com"), ("x-forwarded-for", "1.2.3.4")]
        (some "5.6.7.8") ("https" ++ ":")) "x-forwarded-for" = some "1.2.3.4, 5.6.7.8" ∧
    hget (forwardHeaders [("host", "example.com"), ("x-forwarded-for", "1.2.3.4")]
        (some "5.6.7.8") ("https" ++ ":")) "host" = none ∧
    hget (forwardHeaders [("host", "example.com"), ("x-forwarded-for", "1.2.3.4")]
        (some "5.6.7.8") ("https" ++ ":")) "x-forwarded-proto" = some "https" := by
  have h := c2_header_propagation [("host", "example.com"), ("x-forwarded-for", "1.2.3.4")]
    "5.6.7.8" "https" "example.com" (by decide) (by decide) (by decide) (Or.inr rfl)
  refine ⟨?_, ?_, ?_⟩
  · have hx := h "x-forwarded-for"
    simpa using hx
  · have hx := h "host"
    simpa using hx
  · have hx := h "x-forwarded-proto"
    simpa using hx

/-- C3 (amended): sources are tried in order (explicit path, then
`PROXY_CONFIG ?? REVERSE_PROXY_CONFIG`, then the fixed search list) and the
first source that yields a file is loaded; a given-but-missing explicit path
fails immediately, a set-but-missing environment path also fails immediately
(instead of falling through to the search list), and when no source yields a
file the hard-coded default configuration is returned. -/
theorem c3_load_config_precedence (fs : String → Option RawProxyConfig)
    (fexists : String → Bool) (env : LoadEnv) :
    (∀ p r, p ≠ "" →
      readConfigCandidate fs fexists env.home (toFileURL env p) = some r →
      loadConfig fs fexists env (some p) = r)
    ∧ (∀ p, p ≠ "" → fs (toFileURL env p) = none →
        loadConfig fs fexists env (some p) =
          .error ("[proxy] Config file not found at " ++ toFileURL env p))
    ∧ (∀ ep r, (env.proxyConfig <|> env.reverseProxyConfig) = some ep → ep ≠ "" →
        readConfigCandidate fs fexists env.home (toFileURL env ep) = some r →
        loadConfig fs fexists env none = r)
    ∧ (∀ ep, (env.proxyConfig <|> env.reverseProxyConfig) = some ep → ep ≠ "" →
        fs (toFileURL env ep) = none →
        loadConfig fs fexists env none =
          .error ("[proxy] PROXY_CONFIG points to a missing file: " ++ ep))
    ∧ (strOptTruthy (env.proxyConfig <|> env.reverseProxyConfig) = false →
        (∀ r, readConfigCandidate fs fexists env.home
            (toFileURL env "proxy.config.json") = some r →
          loadConfig fs fexists env none = r)
        ∧ (readConfigCandidate fs fexists env.home
              (toFileURL env "proxy.config.json") = none →
          ∀ r, readConfigCandidate fs fexists env.home
              (toFileURL env "proxy.config.example.json") = some r →
            loadConfig fs fexists env none = r)
        ∧ (readConfigCandidate fs fexists env.home
              (toFileURL env "proxy.config.json") = none →
          readConfigCandidate fs fexists env.home
              (toFileURL env "proxy.config.example.json") = none →
          ∀ r, readConfigCandidate fs fexists env.home env.bundledConfigUrl = some r →
            loadConfig fs fexists env none = r)
        ∧ (readConfigCandidate fs fexists env.home
              (toFileURL env "proxy.config.json") = none →
          readConfigCandidate fs fexists env.home
              (toFileURL env "proxy.config.example.json") = none →
          readConfigCandidate fs fexists env.home env.bundledConfigUrl = none →
          loadConfig fs fexists env none = .ok (defaultConfig env.cwd))) := by
  refine ⟨?_, ?_, ?_, ?_, ?_⟩
  · intro p r hp hrcc
    simp only [loadConfig]
    rw [if_pos (show strOptTruthy (some p) = true by simpa [strOptTruthy] using hp)]
    simp only [Option.getD_some]
    rw [hrcc]
  · intro p hp hfs
    have hrcc : readConfigCandidate fs fexists env.home (toFileURL env p) = none := by
      unfold readConfigCandidate
      rw [hfs]
    simp only [loadConfig]
    rw [if_pos (show strOptTruthy (some p) = true by simpa [strOptTruthy] using hp)]
    simp only [Option.getD_some]
    rw [hrcc]
  · intro ep r henv hep hrcc
    simp only [loadConfig]
    rw [if_neg (by simp [strOptTruthy])]
    rw [henv]
    rw [if_pos (show strOptTruthy (some ep) = true by simpa [strOptTruthy] using hep)]
    simp only [Option.getD_some]
    rw [hrcc]
  · intro ep henv hep hfs
    have hrcc : readConfigCandidate fs fexists env.home (toFileURL env ep) = none := by
      unfold readConfigCandidate
      rw [hfs]
    simp only [loadConfig]
    rw [if_neg (by simp [strOptTruthy])]
    rw [henv]
    rw [if_pos (show strOptTruthy (some ep) = true by simpa [strOptTruthy] using hep)]
    simp only [Option.getD_some]
    rw [hrcc]
  · intro henvf
    refine ⟨?_, ?_, ?_, ?_⟩
    · intro r h1
      simp only [loadConfig]
      rw [if_neg (by simp [strOptTruthy]), if_neg (by rw [henvf]; simp)]
      have hff : firstFound fs fexists env.home
          [toFileURL env "proxy.config.json", toFileURL env "proxy.config.example.json",
            env.bundledConfigUrl] = some r := by
        simp only [firstFound]
        rw [h1]
      rw [hff]
    · intro h1 r h2
      simp only [loadConfig]
      rw [if_neg (by simp [strOptTruthy]), if_neg (by rw [henvf]; simp)]
      have hff : firstFound fs fexists env.home
          [toFileURL env "proxy.config.json", toFileURL env "proxy.config.example.json",
            env.bundledConfigUrl] = some r := by
        simp only [firstFound]
        rw [h1, h2]
      rw [hff]
    · intro h1 h2 r h3
      simp only [loadConfig]
      rw [if_neg (by simp [strOptTruthy]), if_neg (by rw [henvf]; simp)]
      have hff : firstFound fs fexists env.home
          [toFileURL env "proxy.config.json", toFileURL env "proxy.config.example.json",
            env.bundledConfigUrl] = some r := by
        simp only [firstFound]
        rw [h1, h2, h3]
      rw [hff]
    · intro h1 h2 h3
      simp only [loadConfig]
      rw [if_neg (by simp [strOptTruthy]), if_neg (by rw [henvf]; simp)]
      have hff : firstFound fs fexists env.home
          [toFileURL env "proxy.config.json", toFileURL env "proxy.config.example.json",
            env.bundledConfigUrl] = none := by
        simp only [firstFound]
        rw [h1, h2, h3]
      rw [hff, normalizeConfig_none]

/-- C3 counterexample: with `PROXY_CONFIG` set to a missing file, loading
fails even though a later source (the search-list `proxy.config.json`)
yields a file — it is not returned, contradicting "returns the first one
that yields a file". -/
theorem c3_counterexample :
    loadConfig fsC3 (fun _ => true) envC3 none =
      .error "[proxy] PROXY_CONFIG points to a missing file: /missing" ∧
    fsC3 (toFileURL envC3 "proxy.config.json") = some rawEmptyConfig :=
  ⟨by decide, by decide⟩

/-- C3 witness: with no explicit path, no env vars, and no file at any
search path, loading returns the built-in default configuration. -/
theorem c3_witness :
    loadConfig (fun _ => none) (fun _ => true)
      { proxyConfig := none, reverseProxyConfig := none, home := none
      , cwd := "/cwd", bundledConfigUrl := "/bundled/proxy.config.json" } none =
      .ok (defaultConfig "/cwd") :=
  (c3_load_config_precedence (fun _ => none) (fun _ => true)
    { proxyConfig := none, reverseProxyConfig := none, home := none
    , cwd := "/cwd", bundledConfigUrl := "/bundled/proxy.config.json" }).2.2.2.2
    rfl |>.2.2.2 rfl rfl rfl

/-- C4: TLS is wanted exactly when `enabled` is explicitly true or both
cert/key are present with `enabled` unset; a wanted-but-partial pair is a
configuration error; an unwanted (or absent) `tls` section normalizes to no
TLS. -/
theorem c4_tls_wantedness (raw : RawTlsConfig) (baseDir : String) (home : Option String) :
    (normalizeTls none baseDir home = .ok none)
    ∧ (tlsWanted raw = false → normalizeTls (some raw) baseDir home = .ok none)
    ∧ (tlsWanted raw = true → (tlsCertPresent raw && tlsKeyPresent raw) = false →
        normalizeTls (some raw) baseDir home =
          .error "[proxy] TLS enabled but certPath or keyPath is missing.")
    ∧ (tlsWanted raw = true → tlsCertPresent raw = true → tlsKeyPresent raw = true →
        ∃ t, normalizeTls (some raw) baseDir home = .ok (some t)) := by
  refine ⟨rfl, ?_, ?_, ?_⟩
  · intro hw
    simp only [normalizeTls]
    rw [wantsTls_eq_tlsWanted, hw]
    rfl
  · intro hw hcp
    have hcp' : (strOptTruthy (raw.certPath.map jsTrim) &&
        strOptTruthy (raw.keyPath.map jsTrim)) = false := hcp
    simp only [normalizeTls]
    rw [wantsTls_eq_tlsWanted, hw, if_neg (by simp),
      if_pos (by rw [← Bool.not_and, hcp']; rfl)]
  · intro hw hc hk
    have hc' : strOptTruthy (raw.certPath.map jsTrim) = true := hc
    have hk' : strOptTruthy (raw.keyPath.map jsTrim) = true := hk
    obtain ⟨rc, hrc⟩ := resolveWithBase_ok _ baseDir home (strOptTruthy_map_jsTrim raw.certPath hc')
    obtain ⟨rk, hrk⟩ := resolveWithBase_ok _ baseDir home (strOptTruthy_map_jsTrim raw.keyPath hk')
    obtain ⟨rs, hrs⟩ := resolveAll_ok baseDir home _ (filtered_trim_ne
      (match raw.caPath with
        | none => []
        | some (Sum.inl s) => [s]
        | some (Sum.inr l) => l))
    simp only [normalizeTls]
    rw [wantsTls_eq_tlsWanted, hw, if_neg (by simp),
      if_neg (by rw [hc', hk']; simp), hrs, hrc, hrk]
    exact ⟨_, rfl⟩

/-- C4 witness: an explicit `enabled: true` with both paths present (one of
them needing trimming and a CA bundle) normalizes to an active TLS config. -/
theorem c4_witness :
    ∃ t, normalizeTls
        (some { enabled := some true, certPath := some " cert.pem ", keyPath := some "/k.pem"
              , caPath := some (Sum.inl "ca.pem"), passphrase := none
              , requestClientCert := none }) "/cfg" none = .ok (some t) :=
  (c4_tls_wantedness
    { enabled := some true, certPath := some " cert.pem ", keyPath := some "/k.pem"
    , caPath := some (Sum.inl "ca.pem"), passphrase := none
    , requestClientCert := none } "/cfg" none).2.2.2 (by decide) (by decide) (by decide)

/-- C5: with an empty allowlist `isIpAllowed` accepts every input, including
an absent IP; with a non-empty allowlist it accepts exactly the defined IPs
contained verbatim in the list (so an absent IP is rejected).  The allowlist
is assumed free of the empty string, which normalization guarantees
(`allowIps` entries are trimmed and the falsy ones dropped). -/
theorem c5_is_ip_allowed (config : ProxyConfig) (ip : Option String)
    (hclean : "" ∉ config.allowIps) :
    isIpAllowed config ip = true ↔
      (config.allowIps = [] ∨ ∃ i, ip = some i ∧ i ∈ config.allowIps) := by
  unfold isIpAllowed
  cases hips : config.allowIps with
  | nil => simp [hips]
  | cons a rest =>
    rw [hips] at hclean
    rw [if_neg (by simp)]
    cases ip with
    | none => simp
    | some i =>
      show (if (i != "") = true then (a :: rest).contains i else false) = true ↔ _
      by_cases hi : i = ""
      · subst hi
        rw [if_neg (by simp)]
        constructor
        · intro h
          exact absurd h (by simp)
        · intro h
          rcases h with h | ⟨j, hj1, hj2⟩
          · exact absurd h (by simp)
          · rw [show j = "" from by simpa using hj1.symm] at hj2
            exact absurd hj2 hclean
      · rw [if_pos (by simpa using hi)]
        constructor
        · intro h
          exact Or.inr ⟨i, rfl, by simpa [List.contains] using h⟩
        · intro h
          rcases h with h | ⟨j, hj1, hj2⟩
          · exact absurd h (by simp)
          · rw [show j = i from by simpa using hj1.symm] at hj2
            simpa [List.contains] using hj2

/-- C5 witness: a one-entry allowlist admits exactly that IP. -/
theorem c5_witness :
    "" ∉ (mkTestConfig [] ["1.2.3.4"]).allowIps ∧
      (isIpAllowed (mkTestConfig [] ["1.2.3.4"]) (some "1.2.3.4") = true ↔
        ((mkTestConfig [] ["1.2.3.4"]).allowIps = [] ∨
          ∃ i, (some "1.2.3.4" : Option String) = some i ∧
            i ∈ (mkTestConfig [] ["1.2.3.4"]).allowIps)) :=
  ⟨by decide, c5_is_ip_allowed (mkTestConfig [] ["1.2.3.4"]) (some "1.2.3.4") (by decide)⟩

/-- C6: the outbound request has no body for GET/HEAD even when the inbound
request carried one, and carries the inbound body unmodified for every other
method. -/
theorem c6_method_body (req : Req) (clientIP : Option String) :
    (buildInit req clientIP).body =
      if req.method = "GET" ∨ req.method = "HEAD" then none else req.body := by
  unfold buildInit
  have hcontains : (["GET", "HEAD"].contains req.method = true) ↔
      (req.method = "GET" ∨ req.method = "HEAD") := by
    simp [List.contains]
  by_cases h : req.method = "GET" ∨ req.method = "HEAD"
  · rw [if_pos (hcontains.mpr h), if_pos h]
  · rw [if_neg (fun hc => h (hcontains.mp hc)), if_neg h]

/-- C7: the secondary redirect listener is started (on the redirect port)
iff `redirect.enabled` holds, TLS is active, and the redirect port differs
from the primary port; in the port-clash case the listener is skipped with a
warning and no error. -/
theorem c7_redirect_listener (config : ProxyConfig) :
    ((startHttpRedirect config).server.isSome =
      (config.http.redirect.enabled && config.tls.isSome &&
        !(config.http.redirect.port == config.http.port)))
    ∧ ((startHttpRedirect config).server.isSome = true →
        (startHttpRedirect config).server = some config.http.redirect.port)
    ∧ (config.http.redirect.enabled = true → config.tls.isSome = true →
        config.http.redirect.port = config.http.port →
        (startHttpRedirect config).server = none ∧
          (startHttpRedirect config).warnings ≠ []) := by
  unfold startHttpRedirect
  cases hen : config.http.redirect.enabled
  · simp
  · cases htls : config.tls with
    | none => simp
    | some t =>
      by_cases hport : config.http.redirect.port = config.http.port
      · simp [hport]
      · simp [hport]

/-- C7 witness: redirect enabled, TLS active, but redirect port equal to the
primary port — the listener is skipped with a warning. -/
theorem c7_witness :
    (startHttpRedirect
      { http := { enabled := true, host := "0.0.0.0", port := 443
                , redirect := { enabled := true, port := 443, statusCode := 307 } }
      , routes := DEFAULT_ROUTES
      , requireExplicitHost := false
      , allowIps := []
      , tls := some { enabled := true, certPath := "/c.pem", keyPath := "/k.pem"
                    , caPaths := [], passphrase := none, requestClientCert := false }
      , configDir := "/" }).server = none ∧
    (startHttpRedirect
      { http := { enabled := true, host := "0.0.0.0", port := 443
                , redirect := { enabled := true, port := 443, statusCode := 307 } }
      , routes := DEFAULT_ROUTES
      , requireExplicitHost := false
      , allowIps := []
      , tls := some { enabled := true, certPath := "/c.pem", keyPath := "/k.pem"
                    , caPaths := [], passphrase := none, requestClientCert := false }
      , configDir := "/" }).warnings ≠ [] :=
  (c7_redirect_listener _).2.2 rfl rfl rfl

/-- C8: every redirect-listener response has no body, the configured status
code, and a Location of the form
`https://<host>[:<primary-port-unless-443>]<path><query>`. -/
theorem c8_redirect_response (config : ProxyConfig) (hostname pathname search : String) :
    redirectHandler config hostname pathname search =
      { status := config.http.redirect.statusCode
      , body := none
      , headers := [("location",
          "https://" ++ hostname ++
            (if config.http.port = 443 then "" else ":" ++ toString config.http.port) ++
            pathname ++ search)] } := by
  unfold redirectHandler
  by_cases h : config.http.port = 443
  · simp [h]
  · simp [h, String.append_assoc]

/-- C9 counterexample: normalization does not reject route keys that trim to
the empty string, and on such a table an absent Host header (normalizing to
the empty string) successfully resolves instead of failing. -/
theorem c9_counterexample :
    normalizeConfig (some rawC9) "/cfg" none = .ok cfgC9 ∧
    pickTarget cfgC9 none = .ok "http://internal" :=
  ⟨rfl, rfl⟩

/-- C9 (amended): for every configuration normalized from raw routes whose
keys are all non-empty after trimming (the default table included), every
route key is non-empty, so a Host header normalizing to the empty string
always fails with `UnknownHostError` carrying the empty host. -/
theorem c9_empty_host_never_matches (raw : Option RawProxyConfig) (baseDir : String)
    (home : Option String) (cfg : ProxyConfig)
    (hnorm : normalizeConfig raw baseDir home = .ok cfg)
    (hkeys : ∀ kv ∈ ((raw.bind (fun r => r.routes)).getD []), jsTrim kv.1 ≠ "")
    (hh : Option String) (hempty : hostOfHeader hh = "") :
    (∀ kv ∈ cfg.routes, kv.1 ≠ "") ∧
    pickTarget cfg hh = .error { host := "" } := by
  have hroutes : cfg.routes =
      (if (((raw.bind (fun r => r.routes)).getD []).map
            (fun kv => (jsToLower (jsTrim kv.1), jsTrim kv.2))).length > 0
        then ((raw.bind (fun r => r.routes)).getD []).map
          (fun kv => (jsToLower (jsTrim kv.1), jsTrim kv.2))
        else DEFAULT_ROUTES) := by
    simp only [normalizeConfig] at hnorm
    cases htls : normalizeTls (raw.bind (fun r => r.tls)) baseDir home with
    | error e =>
      rw [htls] at hnorm
      exact absurd hnorm (by simp)
    | ok tls =>
      rw [htls] at hnorm
      rw [← Except.ok.inj hnorm]
  have hall : ∀ kv ∈ cfg.routes, kv.1 ≠ "" := by
    rw [hroutes]
    by_cases hlen : (((raw.bind (fun r => r.routes)).getD []).map
        (fun kv => (jsToLower (jsTrim kv.1), jsTrim kv.2))).length > 0
    · rw [if_pos hlen]
      intro kv hkv
      obtain ⟨orig, horig1, horig2⟩ := List.mem_map.mp hkv
      intro he
      have h1 : jsToLower (jsTrim orig.1) = "" := by
        rw [show jsToLower (jsTrim orig.1) = kv.1 from congrArg Prod.fst horig2, he]
      exact hkeys orig horig1 ((jsToLower_eq_empty_iff _).mp h1)
    · rw [if_neg hlen]
      intro kv hkv
      rw [show kv = ("localhost", "http://127.0.0.1:3000") from by
        simpa [DEFAULT_ROUTES] using hkv]
      decide
  have hnone : objLookup cfg.routes "" = none := by
    unfold objLookup
    rw [List.find?_eq_none.mpr]
    · rfl
    · intro x hx
      simpa using hall x (List.mem_reverse.mp hx)
  refine ⟨hall, ?_⟩
  simp only [pickTarget]
  rw [hempty, hnone]

/-- C9 witness: the zero-config fallback table has non-empty keys and an
absent Host header fails with an empty-host `UnknownHostError`. -/
theorem c9_witness :
    normalizeConfig none "/cwd" none = .ok (defaultConfig "/cwd") ∧
    hostOfHeader none = "" ∧
    pickTarget (defaultConfig "/cwd") none = .error { host := "" } :=
  ⟨rfl, rfl,
    (c9_empty_host_never_matches none "/cwd" none (defaultConfig "/cwd") rfl
      (by intro kv hkv; simp at hkv) none rfl).2⟩

/-- C10: the outbound headers always carry `x-forwarded-for`; with no
derivable client IP and no inbound value it is set to the empty string, and
`x-forwarded-host` is set to the empty string when the inbound `Host` is
absent. -/
theorem c10_default_headers (hs : List (String × String)) (clientIP : Option String)
    (protocol : String) :
    ((hget (forwardHeaders hs clientIP protocol) "x-forwarded-for").isSome = true)
    ∧ (hget hs "x-forwarded-for" = none → clientIP = none →
        hget (forwardHeaders hs clientIP protocol) "x-forwarded-for" = some "")
    ∧ (hget hs "host" = none →
        hget (forwardHeaders hs clientIP protocol) "x-forwarded-host" = some "") := by
  unfold forwardHeaders
  have hxff : hget (hset (hset (hset (hdelete hs "host") "x-forwarded-for"
        (joinXff (hget (hdelete hs "host") "x-forwarded-for") clientIP))
        "x-forwarded-host" ((hget hs "host").getD ""))
        "x-forwarded-proto" (jsReplaceFirst protocol ":" "")) "x-forwarded-for" =
      some (joinXff (hget (hdelete hs "host") "x-forwarded-for") clientIP) := by
    rw [hget_hset_ne _ _ _ _ (by decide), hget_hset_ne _ _ _ _ (by decide), hget_hset_self]
  refine ⟨by rw [hxff]; rfl, ?_, ?_⟩
  · intro h1 h2
    rw [hxff, hget_hdelete_ne _ _ _ (by decide), h1, h2]
    rfl
  · intro h1
    rw [hget_hset_ne _ _ _ _ (by decide), hget_hset_self, h1]
    rfl

/-- C10 witness: empty inbound headers and no client IP yield empty-string
`x-forwarded-for` and `x-forwarded-host` entries. -/
theorem c10_witness :
    hget (forwardHeaders [] none "http:") "x-forwarded-for" = some "" ∧
    hget (forwardHeaders [] none "http:") "x-forwarded-host" = some "" :=
  ⟨(c10_default_headers [] none "http:").2.1 rfl rfl,
   (c10_default_headers [] none "http:").2.2 rfl⟩
